import Mathlib

/-!
Shallow embedding of the zenoh InfluxDB v1 storage backend (src/v1/src/lib.rs)
together with theorems checking its natural-language specification against the
code.  Pure fragments of the Rust code are translated into Lean functions;
backend I/O (the InfluxDB client) is made explicit by passing the outcome of
each backend query as an argument; machine integers are modelled as `Nat`/`Int`.
Definitions that embed code external to this repository (the zenoh key-expression
validator, the uhlc timestamp syntax, the zenoh time-range structures, the
humantime RFC3339 formatter, the base64 codec, and InfluxDB's regex matching)
carry a doc comment saying what they model.
-/

deriving instance DecidableEq for Except

/- ================= Key codec (KeyCodec) ================= -/

/-- Special series name used when the key is `None` (src line 87). -/
def NONE_KEY : String := "@@none_key@@"

/-- Splits a character list on a separator character; used to model the
segment structure of key expressions and of timestamp strings. -/
def splitOnChar (sep : Char) : List Char → List (List Char)
  | [] => [[]]
  | c :: rest =>
    if c = sep then [] :: splitOnChar sep rest
    else
      match splitOnChar sep rest with
      | s :: ss => (c :: s) :: ss
      | [] => [[c]]

/-- Modelled from the spec: a key is "an ordered sequence of non-empty segments
joined by `/`" (spec section 3).  This models the validation performed by the
external `zenoh::key_expr::OwnedKeyExpr::from_str`, which is not part of this
repository. -/
def keyexprValid (s : String) : Bool :=
  !s.data.isEmpty && (splitOnChar '/' s.data).all (fun seg => !seg.isEmpty)

/-- A zenoh key expression: a string accepted by the validator. -/
def OwnedKeyExpr : Type := { s : String // keyexprValid s = true }

instance : DecidableEq OwnedKeyExpr := Subtype.instDecidableEq

/-- Modelled from the spec: `OwnedKeyExpr::from_str` (external zenoh code),
returning the validated key or an error. -/
def OwnedKeyExpr.fromStr (s : String) : Except String OwnedKeyExpr :=
  if h : keyexprValid s = true then .ok ⟨s, h⟩
  else .error ("invalid key expression: " ++ s)

/-- The measurement (series) name resolved for a key:
`key.unwrap_or_else(|| OwnedKeyExpr::from_str(NONE_KEY).unwrap())`
(src lines 551, 623, 674-677). -/
def measurement_of (key : Option OwnedKeyExpr) : String :=
  match key with
  | some k => k.val
  | none => NONE_KEY

/-- `InfluxDbStorage::keyexpr_from_serie` (src lines 526-535): the sentinel
series name decodes to `None`, anything else must parse as a key expression. -/
def keyexpr_from_serie (serie_name : String) : Except String (Option OwnedKeyExpr) :=
  if serie_name = NONE_KEY then .ok none
  else
    match OwnedKeyExpr.fromStr serie_name with
    | .ok key => .ok (some key)
    | .error e => .error e

/- ================= Timestamps ================= -/

/-- Logical timestamp (external `uhlc::Timestamp`): an NTP64 time value plus a
replica id, both modelled as `Nat`; `time` is taken in the nanosecond scale
that `timestamp.get_time().to_duration().as_nanos()` produces.  uhlc derives
its order lexicographically on `(time, id)`. -/
structure Timestamp where
  time : Nat
  id : Nat
deriving DecidableEq, Repr

/-- The derived (lexicographic) strict order of `uhlc::Timestamp`. -/
def Timestamp.lt (a b : Timestamp) : Bool :=
  decide (a.time < b.time) || (a.time == b.time && decide (a.id < b.id))

/-- `timestamp.get_time().to_duration().as_nanos()` (src lines 554, 626):
the InfluxDB point time of a logical timestamp. -/
def influx_time_of (ts : Timestamp) : Nat := ts.time

/-- Modelled from the spec: the `Display` form of the external `uhlc::Timestamp`
("a self-describing Timestamp string", spec section 3) — the time value and the
replica id separated by `/`. -/
def Timestamp.toStr (ts : Timestamp) : String :=
  toString ts.time ++ "/" ++ toString ts.id

/-- Parses a decimal natural number; helper for `Timestamp.parse`. -/
def parseDecimal (cs : List Char) : Option Nat :=
  if cs.isEmpty then none
  else
    cs.foldl
      (fun acc c =>
        match acc with
        | some n => if c.isDigit then some (n * 10 + (c.toNat - 48)) else none
        | none => none)
      (some 0)

/-- Modelled from the spec: `Timestamp::from_str` of the external uhlc library,
the inverse of `Timestamp.toStr`; fails on anything not of the form
`<decimal time>/<decimal id>`. -/
def Timestamp.parse (s : String) : Option Timestamp :=
  match splitOnChar '/' s.data with
  | [t, i] =>
    match parseDecimal t, parseDecimal i with
    | some tv, some iv => some ⟨tv, iv⟩
    | _, _ => none
  | _ => none

/- ================= put: stale check (TombstoneManager) ================= -/

/-- Result type of storage insertions (`zenoh_backend_traits::StorageInsertionResult`). -/
inductive StorageInsertionResult
| inserted
| deleted
| outdated
deriving DecidableEq, Repr

/-- `InfluxDbStorage::put` (src lines 545-616), with backend I/O made explicit:
`del_ts` is the outcome of `get_deletion_timestamp` (src lines 468-506, itself a
backend query for the most recent DEL point's `timestamp` field), and
`write_ok` tells whether the write query (or the enqueue to the batch channel)
succeeds.  Returns the call's result together with a flag telling whether a
write was issued; value serialization is modelled separately by
`put_encode_value`.  The stale check is `timestamp < del_time` (src line 559):
only a strictly newer deletion timestamp makes the put `Outdated`. -/
def put_model (del_ts : Except String (Option Timestamp)) (write_ok : Bool)
    (ts : Timestamp) : Except String StorageInsertionResult × Bool :=
  match del_ts with
  | .error e => (.error e, false)
  | .ok del =>
    match del with
    | some del_time =>
      if Timestamp.lt ts del_time then (.ok .outdated, false)
      else if write_ok then (.ok .inserted, true)
      else (.error "Failed to put Value in InfluxDb storage", true)
    | none =>
      if write_ok then (.ok .inserted, true)
      else (.error "Failed to put Value in InfluxDb storage", true)

/- ================= delete (TombstoneManager) ================= -/

/-- The backend actions issued by `InfluxDbStorage::delete`, in order. -/
inductive DeleteAction
| delete_points_before (influx_time : Nat)
| write_del_point (influx_time : Nat) (timestamp_field : String)
| schedule_drop (measurement : String)
deriving DecidableEq, Repr

/-- `InfluxDbStorage::delete` (src lines 618-667), with the outcome of the two
backend queries passed explicitly: first the `DELETE FROM "m" WHERE time < t`
query (src lines 630-641), then the DEL tombstone point write (src lines
643-663); only when both succeed is the deferred measurement drop scheduled
(src line 665) and `Deleted` returned. -/
def delete_model (measurement : String) (ts : Timestamp)
    (del_query_ok write_query_ok : Bool) :
    List DeleteAction × Except String StorageInsertionResult :=
  let influx_time := influx_time_of ts
  let acts := [DeleteAction.delete_points_before influx_time]
  if del_query_ok = false then
    (acts, .error "Failed to delete points for measurement from InfluxDb storage")
  else
    let acts := acts ++ [DeleteAction.write_del_point influx_time (Timestamp.toStr ts)]
    if write_query_ok = false then
      (acts, .error "Failed to mark measurement as deleted")
    else
      (acts ++ [DeleteAction.schedule_drop measurement], .ok .deleted)

/- ================= deferred drop (drop_measurement) ================= -/

/-- `drop_measurement` (src lines 894-943), reduced to its decision: the outer
`Except` is the outcome of the emptiness-check query
(`SELECT "kind" FROM "m" WHERE kind!='DEL' LIMIT 1`), the inner `Except` the
outcome of deserializing its rows, carrying the returned series.  The result
tells whether the `DROP MEASUREMENT` query is issued: a failed query returns
early without dropping; a failed deserialization only warns and falls through
to the drop; a successful check drops only when no series came back. -/
def drop_measurement_decision
    (query_result : Except String (Except String (List (List String)))) : Bool :=
  match query_result with
  | .error _ => false
  | .ok (.error _) => true
  | .ok (.ok series) => series.isEmpty

/- ================= key_exprs_to_influx_regex (KeyCodec.toPattern) ================= -/

/-- The character loop of `key_exprs_to_influx_regex` (src lines 1026-1042):
`*` peeks at the next character — if it is another `*`, push `.*` and consume
it; if some other character follows, push `.*` as well; if nothing follows,
push nothing.  `/` becomes `\/` and every other character is copied. -/
def compileChars : List Char → List Char
  | [] => []
  | c :: rest =>
    if c = '*' then
      match rest with
      | [] => []
      | c2 :: rest2 =>
        if c2 = '*' then '.' :: '*' :: compileChars rest2
        else '.' :: '*' :: compileChars (c2 :: rest2)
    else if c = '/' then '\\' :: '/' :: compileChars rest
    else c :: compileChars rest

/-- The `|`-separation of compiled expressions (src lines 1022-1025). -/
def joinAlternatives : List (List Char) → List Char
  | [] => []
  | [x] => x
  | x :: xs => x ++ '|' :: joinAlternatives xs

/-- `key_exprs_to_influx_regex` (src lines 1019-1046): compiles each key
expression, joins them with `|` and surrounds the whole with `/^` and `$/`. -/
def key_exprs_to_influx_regex (path_exprs : List String) : String :=
  String.mk (('/' :: '^' :: joinAlternatives (path_exprs.map (fun p => compileChars p.data))) ++ ['$', '/'])

/-- Tokens of the regex dialect emitted by `key_exprs_to_influx_regex`. -/
inductive ReTok
| lit (c : Char)
| anyChar
| anyStar
deriving DecidableEq, Repr

/-- Modelled from the spec: InfluxDB evaluates `/^...$/` patterns as (Go)
regular expressions; this tokenizes one alternation branch of the dialect the
compiler emits — backslash escapes, `.*`, `.`, and literal characters. -/
def tokenizeRegex : List Char → List ReTok
  | [] => []
  | '\\' :: c :: rest => ReTok.lit c :: tokenizeRegex rest
  | ['\\'] => [ReTok.lit '\\']
  | '.' :: '*' :: rest => ReTok.anyStar :: tokenizeRegex rest
  | '.' :: rest => ReTok.anyChar :: tokenizeRegex rest
  | c :: rest => ReTok.lit c :: tokenizeRegex rest

/-- Modelled from the spec: full-string matching of a token sequence, `anyStar`
matching any sequence of characters (separator included), `anyChar` a single
character. -/
def matchToks : List ReTok → List Char → Bool
  | [], cs => cs.isEmpty
  | ReTok.lit c :: ts, cs =>
    match cs with
    | [] => false
    | d :: ds => c == d && matchToks ts ds
  | ReTok.anyChar :: ts, cs =>
    match cs with
    | [] => false
    | _ :: ds => matchToks ts ds
  | ReTok.anyStar :: ts, cs => cs.tails.any (fun suf => matchToks ts suf)

/-- Modelled from the spec: splitting a pattern body at top-level `|`
alternations (a backslash escapes the following character). -/
def splitAlternatives : List Char → List (List Char)
  | [] => [[]]
  | '\\' :: c :: rest =>
    match splitAlternatives rest with
    | b :: bs => ('\\' :: c :: b) :: bs
    | [] => [['\\', c]]
  | '|' :: rest => [] :: splitAlternatives rest
  | c :: rest =>
    match splitAlternatives rest with
    | b :: bs => (c :: b) :: bs
    | [] => [[c]]

/-- Modelled from the spec: whether an InfluxDB `/^...$/` pattern matches a
series name — the pattern is anchored at both ends, so the body must match the
whole name, under one of its alternation branches. -/
def influxRegexMatch (pattern s : String) : Bool :=
  match pattern.data with
  | '/' :: '^' :: rest =>
    let n := rest.length
    if 2 ≤ n ∧ rest.drop (n - 2) = ['$', '/'] then
      (splitAlternatives (rest.take (n - 2))).any
        (fun b => matchToks (tokenizeRegex b) s.data)
    else false
  | _ => false

/- ================= clauses_from_parameters (TimeRangeTranslator) ================= -/

/-- Modelled from the spec: the external `zenoh::query::TimeExpr` — either a
fixed instant (a `SystemTime`, here seconds and nanoseconds since the epoch) or
an offset in seconds relative to `now` (the zenoh field is a float; it is
modelled as the signed integer the spec's "relative-to-now offset in signed
seconds" describes). -/
inductive TimeExpr
| fixed (secs : Nat) (nanos : Nat)
| now (offset_secs : Int)
deriving DecidableEq, Repr

/-- Modelled from the spec: the external `zenoh::query::TimeBound`. -/
inductive TimeBound
| inclusive (t : TimeExpr)
| exclusive (t : TimeExpr)
| unbounded
deriving DecidableEq, Repr

/-- Modelled from the spec: the external `zenoh::query::TimeRange` pair of a
lower and an upper bound. -/
structure TimeRange where
  start : TimeBound
  stop : TimeBound
deriving DecidableEq, Repr

/-- Left-pads a decimal representation with zeroes; helper for the RFC3339
formatter. -/
def padZeros (width n : Nat) : String :=
  let s := toString n
  String.mk (List.replicate (width - s.data.length) '0') ++ s

/-- Civil date (year, month, day) from days since 1970-01-01, following the
standard era-based algorithm; helper for the RFC3339 formatter. -/
def civilFromDays (days : Nat) : Nat × Nat × Nat :=
  let z := days + 719468
  let era := z / 146097
  let doe := z % 146097
  let yoe := (doe - doe / 1460 + doe / 36524 - doe / 146097) / 365
  let y := yoe + era * 400
  let doy := doe - (365 * yoe + yoe / 4 - yoe / 100)
  let mp := (5 * doy + 2) / 153
  let d := doy - (153 * mp + 2) / 5 + 1
  let m := if mp < 10 then mp + 3 else mp - 9
  (if m ≤ 2 then y + 1 else y, m, d)

/-- Modelled from the spec: `humantime::format_rfc3339` (external), which
renders a `SystemTime` as an RFC3339 timestamp in UTC, printing a fractional
part only when the nanoseconds are non-zero, with 3, 6 or 9 digits. -/
def format_rfc3339 (secs nanos : Nat) : String :=
  let days := secs / 86400
  let secOfDay := secs % 86400
  let ymd := civilFromDays days
  let base :=
    padZeros 4 ymd.1 ++ "-" ++ padZeros 2 ymd.2.1 ++ "-" ++ padZeros 2 ymd.2.2 ++ "T" ++
      padZeros 2 (secOfDay / 3600) ++ ":" ++ padZeros 2 (secOfDay / 60 % 60) ++ ":" ++
      padZeros 2 (secOfDay % 60)
  let frac :=
    if nanos = 0 then ""
    else if nanos % 1000000 = 0 then "." ++ padZeros 3 (nanos / 1000000)
    else if nanos % 1000 = 0 then "." ++ padZeros 6 (nanos / 1000)
    else "." ++ padZeros 9 nanos
  base ++ frac ++ "Z"

/-- The `{offset_secs:+}` rendering of a signed offset: the sign is always
printed. -/
def signedSeconds (off : Int) : String :=
  if off < 0 then "-" ++ toString off.natAbs else "+" ++ toString off.natAbs

/-- `write_timeexpr` (src lines 1086-1095), as the string it appends: a fixed
instant becomes a quoted RFC3339 timestamp, a relative bound becomes
`now()` with the signed offset and an `s` suffix. -/
def write_timeexpr : TimeExpr → String
  | .fixed secs nanos => "'" ++ format_rfc3339 secs nanos ++ "'"
  | .now off => "now()" ++ signedSeconds off ++ "s"

/-- `clauses_from_parameters` (src lines 1048-1084).  The call
`TimeRange::from_str(p)` is external zenoh code; its outcome is the argument.
Starting from `WHERE kind!='DEL'`, a parsed range appends one comparison per
bounded end (`>=`/`>` for the start, `<=`/`<` for the stop); a parse failure
appends `ORDER BY time DESC LIMIT 1` instead. -/
def clauses_from_parameters (time_range : Except String TimeRange) : Except String String :=
  let result := "WHERE kind!='DEL'"
  match time_range with
  | .ok tr =>
    let result :=
      match tr.start with
      | .inclusive t => result ++ " AND time >= " ++ write_timeexpr t
      | .exclusive t => result ++ " AND time > " ++ write_timeexpr t
      | .unbounded => result
    let result :=
      match tr.stop with
      | .inclusive t => result ++ " AND time <= " ++ write_timeexpr t
      | .exclusive t => result ++ " AND time < " ++ write_timeexpr t
      | .unbounded => result
    .ok result
  | .error _ => .ok (result ++ " ORDER BY time DESC LIMIT 1")

/-- The time representation as the specification words it (spec section 4.2 and
claim C4): fixed instants as quoted RFC3339 strings, relative offsets as
`now()` with a signed seconds offset. -/
def spec_time_repr : TimeExpr → String
  | .fixed secs nanos => "'" ++ format_rfc3339 secs nanos ++ "'"
  | .now off => "now()" ++ signedSeconds off ++ "s"

/-- One bound of the clause as the specification words it; see
`spec_filter_clause`. -/
def spec_bound_clause (incl excl : String) : TimeBound → String
  | .inclusive t => " AND time " ++ incl ++ " " ++ spec_time_repr t
  | .exclusive t => " AND time " ++ excl ++ " " ++ spec_time_repr t
  | .unbounded => ""

/-- The whole clause as the specification words it (spec section 4.2 and claim
C4): `kind != DEL`, plus one time comparison per bounded end with `>=` for an
inclusive and `>` for an exclusive lower bound, `<=` for an inclusive and `<`
for an exclusive upper bound; on parse failure `kind != DEL` plus descending
time order with limit 1. -/
def spec_filter_clause : Except String TimeRange → String
  | .ok tr =>
    "WHERE kind!='DEL'" ++ spec_bound_clause ">=" ">" tr.start ++
      spec_bound_clause "<=" "<" tr.stop
  | .error _ => "WHERE kind!='DEL' ORDER BY time DESC LIMIT 1"

/- ================= WriteBatcher (create_storage batch task) ================= -/

/-- Batching configuration (src lines 237-246): the point-count threshold and
the timeout, the latter in milliseconds. -/
structure BatchConfig where
  put_batch_size : Nat
  put_batch_timeout : Nat
deriving DecidableEq, Repr

/-- The worker-loop state: the accumulated batch (write queries, modelled as
opaque `Nat` identifiers) and the instant the batch's first item arrived. -/
structure BatchState where
  put_batch : List Nat
  batch_start_time : Nat
deriving DecidableEq, Repr

/-- What the channel receive of one iteration yields: an item, closure of the
sender side, or the 100 ms poll timeout (the latter only arises on the
non-empty branch, whose receive is the only one with a timeout). -/
inductive RecvOutcome
| item (query : Nat)
| closed
| timedOut
deriving DecidableEq, Repr

/-- Outcome of one iteration of the worker loop: either the loop keeps running
with a new state, possibly having flushed a combined batch, or it exits,
dropping whatever batch was accumulated. -/
inductive BatchStepResult
| running (s : BatchState) (flushed : Option (List Nat))
| exited (dropped : List Nat)
deriving DecidableEq, Repr

/-- The batch the state holds after the receive of this iteration. -/
def batchAfterRecv (s : BatchState) (recv : RecvOutcome) : List Nat :=
  match recv with
  | .item q => s.put_batch ++ [q]
  | _ => s.put_batch

/-- One iteration of the batching worker loop (src lines 337-407).  `now` is
the current instant (used for `Instant::now()` on the first item and to model
`batch_start_time.elapsed()` as `now - batch_start_time`); `flush_ok` is the
backend outcome of the combined write `client.query(&put_batch)`, which the
loop only logs.  An empty batch blocks for the first item; a non-empty batch
polls for up to 100 ms, exits immediately when the channel is closed (before
any flush check, so the accumulated batch is dropped), and otherwise flushes
the whole batch as one call exactly when `put_batch.len() >= put_batch_size`
or `batch_start_time.elapsed() > put_batch_timeout`, clearing the batch
afterwards whatever the write's outcome. -/
def batch_step (cfg : BatchConfig) (now : Nat) (s : BatchState)
    (recv : RecvOutcome) (_flush_ok : Bool) : BatchStepResult :=
  if s.put_batch.isEmpty then
    match recv with
    | .item q => .running ⟨[q], now⟩ none
    | .closed => .exited s.put_batch
    | .timedOut => .running s none
  else
    match recv with
    | .closed => .exited s.put_batch
    | r =>
      let put_batch := batchAfterRecv s r
      let batch_full := cfg.put_batch_size ≤ put_batch.length
      let batch_timed_out := cfg.put_batch_timeout < now - s.batch_start_time
      if batch_full || batch_timed_out then
        .running ⟨[], s.batch_start_time⟩ (some put_batch)
      else
        .running ⟨put_batch, s.batch_start_time⟩ none

/-- The batch flushed by an iteration, if any. -/
def flushedOf : BatchStepResult → Option (List Nat)
  | .running _ f => f
  | .exited _ => none

/-- The state the loop continues with, if it continues. -/
def stateOf : BatchStepResult → Option BatchState
  | .running s _ => some s
  | .exited _ => none

/- ================= Value serialization (put / get) ================= -/

/-- UTF-8 encoding of one character (1 to 4 bytes); bytes are `Nat`s below 256. -/
def utf8EncodeChar (c : Char) : List Nat :=
  let v := c.toNat
  if v < 128 then [v]
  else if v < 2048 then [192 + v / 64, 128 + v % 64]
  else if v < 65536 then [224 + v / 4096, 128 + v / 64 % 64, 128 + v % 64]
  else [240 + v / 262144, 128 + v / 4096 % 64, 128 + v / 64 % 64, 128 + v % 64]

/-- The UTF-8 bytes of a string (Rust's `String::into_bytes`). -/
def strBytes (s : String) : List Nat :=
  s.data.foldr (fun c acc => utf8EncodeChar c ++ acc) []

/-- Modelled from the spec: strict UTF-8 decoding of a byte sequence, as Rust's
`String::from_utf8` validates it (continuation ranges, no overlong forms, no
surrogates, at most U+10FFFF); models the payload-to-`String` deserialization
of the external zenoh `Value`. -/
def utf8DecodeList : List Nat → Option (List Char)
  | [] => some []
  | b :: rest =>
    if b < 128 then
      match utf8DecodeList rest with
      | some cs => some (Char.ofNat b :: cs)
      | none => none
    else if b < 194 then none
    else if b < 224 then
      match rest with
      | b2 :: rest2 =>
        if 128 ≤ b2 ∧ b2 < 192 then
          match utf8DecodeList rest2 with
          | some cs => some (Char.ofNat ((b - 192) * 64 + (b2 - 128)) :: cs)
          | none => none
        else none
      | [] => none
    else if b < 240 then
      match rest with
      | b2 :: b3 :: rest3 =>
        let lo2 := if b = 224 then 160 else 128
        let hi2 := if b = 237 then 160 else 192
        if lo2 ≤ b2 ∧ b2 < hi2 ∧ 128 ≤ b3 ∧ b3 < 192 then
          match utf8DecodeList rest3 with
          | some cs =>
            some (Char.ofNat ((b - 224) * 4096 + (b2 - 128) * 64 + (b3 - 128)) :: cs)
          | none => none
        else none
      | _ => none
    else if b ≤ 244 then
      match rest with
      | b2 :: b3 :: b4 :: rest4 =>
        let lo2 := if b = 240 then 144 else 128
        let hi2 := if b = 244 then 144 else 192
        if lo2 ≤ b2 ∧ b2 < hi2 ∧ 128 ≤ b3 ∧ b3 < 192 ∧ 128 ≤ b4 ∧ b4 < 192 then
          match utf8DecodeList rest4 with
          | some cs =>
            some (Char.ofNat
              ((b - 240) * 262144 + (b2 - 128) * 4096 + (b3 - 128) * 64 + (b4 - 128)) :: cs)
          | none => none
        else none
      | _ => none
    else none

/-- Modelled from the spec: the standard base64 alphabet of the external
base64 crate's `STANDARD` engine. -/
def b64Alphabet : List Char :=
  ['A', 'B', 'C', 'D', 'E', 'F', 'G', 'H', 'I', 'J', 'K', 'L', 'M',
   'N', 'O', 'P', 'Q', 'R', 'S', 'T', 'U', 'V', 'W', 'X', 'Y', 'Z',
   'a', 'b', 'c', 'd', 'e', 'f', 'g', 'h', 'i', 'j', 'k', 'l', 'm',
   'n', 'o', 'p', 'q', 'r', 's', 't', 'u', 'v', 'w', 'x', 'y', 'z',
   '0', '1', '2', '3', '4', '5', '6', '7', '8', '9', '+', '/']

/-- The alphabet character of a 6-bit value. -/
def b64Char (n : Nat) : Char := b64Alphabet.getD n 'A'

/-- The 6-bit value of an alphabet character, if any. -/
def b64Val (c : Char) : Option Nat := b64Alphabet.findIdx? (fun x => x == c)

/-- Modelled from the spec: base64 encoding with `=` padding
(`b64_std_engine.encode`, external). -/
def b64encodeChars : List Nat → List Char
  | a :: b :: c :: rest =>
    b64Char (a / 4) :: b64Char (a % 4 * 16 + b / 16) ::
      b64Char (b % 16 * 4 + c / 64) :: b64Char (c % 64) :: b64encodeChars rest
  | [a, b] => [b64Char (a / 4), b64Char (a % 4 * 16 + b / 16), b64Char (b % 16 * 4), '=']
  | [a] => [b64Char (a / 4), b64Char (a % 4 * 16), '=', '=']
  | [] => []

/-- Modelled from the spec: base64 decoding with `=` padding
(`b64_std_engine.decode`, external); rejects malformed input. -/
def b64decodeChars : List Char → Option (List Nat)
  | c1 :: c2 :: c3 :: c4 :: rest =>
    if rest.isEmpty ∧ c3 = '=' ∧ c4 = '=' then
      match b64Val c1, b64Val c2 with
      | some v1, some v2 => if v2 % 16 = 0 then some [v1 * 4 + v2 / 16] else none
      | _, _ => none
    else if rest.isEmpty ∧ c4 = '=' then
      match b64Val c1, b64Val c2, b64Val c3 with
      | some v1, some v2, some v3 =>
        if v3 % 4 = 0 then some [v1 * 4 + v2 / 16, v2 % 16 * 16 + v3 / 4] else none
      | _, _, _ => none
    else
      match b64Val c1, b64Val c2, b64Val c3, b64Val c4, b64decodeChars rest with
      | some v1, some v2, some v3, some v4, some bs =>
        some ((v1 * 4 + v2 / 16) :: (v2 % 16 * 16 + v3 / 4) :: (v3 % 4 * 64 + v4) :: bs)
      | _, _, _, _, _ => none
  | [] => some []
  | _ => none

/-- Base64 of a byte sequence, as a string. -/
def b64encode (bs : List Nat) : String := String.mk (b64encodeChars bs)

/-- The value-serialization step of `put` (src lines 568-572): a payload that
deserializes as a `String` is stored as that string with the base64 flag
`false`; otherwise the flag is `true` and the stored string is —as the code is
written— the base64 encoding of `err.to_string()`, the *display text of the
deserialization error* (an external zenoh string, passed here as `err_msg`),
not of the payload. -/
def put_encode_value (err_msg : String) (payload : List Nat) : Bool × String :=
  match utf8DecodeList payload with
  | some cs => (false, String.mk cs)
  | none => (true, b64encode (strBytes err_msg))

/-- The payload-decoding step of `get` (src lines 730-744): a flagged value is
base64-decoded (skipping the point on failure, hence `Option`), an unflagged
value yields its raw UTF-8 bytes (`ZBuf::from(zpoint.value.into_bytes())`). -/
def get_decode_payload (base64 : Bool) (value : String) : Option (List Nat) :=
  if base64 then b64decodeChars value.data
  else some (strBytes value)

/- ================= get (StorageEngine.get) ================= -/

/-- The model of the zenoh `Encoding` built while decoding a point
(src lines 725-729): `Encoding::new(prefix, None)` when the suffix is empty,
`Encoding::from(suffix)` otherwise. -/
inductive EncodingModel
| fromId (id : Nat)
| fromSuffix (s : String)
deriving DecidableEq, Repr

/-- A decoded entry of `get`'s reply (`zenoh_backend_traits::StoredData`):
payload bytes, encoding and logical timestamp. -/
structure StoredData where
  payload : List Nat
  encoding : EncodingModel
  timestamp : Timestamp
deriving DecidableEq, Repr

/-- One row of the InfluxDB JSON reply, as the `ZenohPoint` struct deserialized
in `get` (src lines 689-699). -/
structure ZenohPoint where
  kind : String
  timestamp : String
  encoding_prefix : Nat
  encoding_suffix : String
  base64 : Bool
  value : String
deriving DecidableEq, Repr

/-- One returned series: its name and its rows. -/
structure Serie where
  name : String
  values : List ZenohPoint
deriving DecidableEq, Repr

/-- The per-point decoding of `get` (src lines 722-757): build the encoding,
decode the payload (skipping the point when the base64 decode fails), parse
the timestamp (skipping the point when it does not parse). -/
def decode_point (zp : ZenohPoint) : Option StoredData :=
  match zp with
  | ⟨_kind, ts_str, ep, es, b64, v⟩ =>
    let encoding := if es.data.isEmpty then EncodingModel.fromId ep
      else EncodingModel.fromSuffix es
    match get_decode_payload b64 v with
    | none => none
    | some payload =>
      match Timestamp.parse ts_str with
      | none => none
      | some ts => some ⟨payload, encoding, ts⟩

/-- The per-series processing of `get` (src lines 708-759): a series whose name
does not decode back to a key is skipped entirely (`continue` after the logged
error); otherwise each row is decoded, dropping the undecodable ones. -/
def process_series (series : List Serie) : List StoredData :=
  series.foldr
    (fun serie acc =>
      match keyexpr_from_serie serie.name with
      | .error _ => acc
      | .ok _ke => serie.values.filterMap decode_point ++ acc)
    []

/-- The result loop of `get` (src lines 701-770): each element of `chunks` is
the outcome of one `deserialize_next::<ZenohPoint>()` call; a failed
deserialization aborts the whole call with an error (src lines 761-767), a
successful one contributes its series' decodable points. -/
def get_process : List (Except String (List Serie)) → Except String (List StoredData)
  | [] => .ok []
  | .error e :: _ => .error e
  | .ok series :: rest =>
    match get_process rest with
    | .error e => .error e
    | .ok tail => .ok (process_series series ++ tail)

/-- `InfluxDbStorage::get` (src lines 669-778) after the query string is built:
the argument is the outcome of `client.json_query` — `.error` when the query
itself fails (src lines 771-775), otherwise the list of deserialization
chunks. -/
def get_model (query_result : Except String (List (Except String (List Serie)))) :
    Except String (List StoredData) :=
  match query_result with
  | .error e => .error e
  | .ok chunks => get_process chunks

/- ================= Theorems ================= -/

/-- Claim C1, counterexample: the claim says a DEL point whose Timestamp is
greater than *or equal to* the incoming timestamp makes `put` return
`Outdated` without writing; but at equal timestamps (here `⟨5, 1⟩` on both
sides, so the deletion timestamp is not below the incoming one) the code's
strict comparison `timestamp < del_time` (src line 559) lets the put proceed:
it writes and returns `Inserted`. -/
theorem c1_stale_check_counterexample :
    Timestamp.lt ⟨5, 1⟩ ⟨5, 1⟩ = false ∧
      put_model (.ok (some ⟨5, 1⟩)) true ⟨5, 1⟩ = (.ok .inserted, true) := by
  decide

/-- Claim C1, amended: `put` returns `Outdated` and writes nothing exactly when
the stored DEL timestamp is *strictly* greater than the incoming timestamp;
with no DEL point recorded the stale check never rejects and a write is
issued. -/
theorem c1_stale_check_amended :
    ∀ (d ts : Timestamp) (write_ok : Bool),
      (((put_model (.ok (some d)) write_ok ts).1 = .ok .outdated ∧
          (put_model (.ok (some d)) write_ok ts).2 = false) ↔
        Timestamp.lt ts d = true)
      ∧ (put_model (.ok none) write_ok ts).2 = true := by
  intro d ts write_ok
  constructor
  · cases hlt : Timestamp.lt ts d <;> cases write_ok <;> simp [put_model, hlt]
  · cases write_ok <;> simp [put_model]

/-- Claim C2: `delete` first issues the backend deletion of all points with
time below the incoming timestamp, then (only if that succeeded) writes the
DEL tombstone point; it returns `Deleted` exactly when both backend writes
succeed, and the deferred drop of the series is scheduled exactly in that
case. -/
theorem c2_delete_sequencing :
    ∀ (m : String) (ts : Timestamp) (del_query_ok write_query_ok : Bool),
      ((delete_model m ts del_query_ok write_query_ok).2 = .ok .deleted ↔
        del_query_ok = true ∧ write_query_ok = true)
      ∧ (delete_model m ts del_query_ok write_query_ok).1.head? =
          some (.delete_points_before (influx_time_of ts))
      ∧ (delete_model m ts del_query_ok write_query_ok).1[1]? =
          (if del_query_ok then
            some (.write_del_point (influx_time_of ts) (Timestamp.toStr ts))
          else none)
      ∧ (delete_model m ts del_query_ok write_query_ok).1[2]? =
          (if del_query_ok && write_query_ok then some (.schedule_drop m) else none)
      ∧ (DeleteAction.schedule_drop m ∈ (delete_model m ts del_query_ok write_query_ok).1 ↔
          del_query_ok = true ∧ write_query_ok = true) := by
  intro m ts del_query_ok write_query_ok
  cases del_query_ok <;> cases write_query_ok <;>
    simp [delete_model]

/-- Claim C10: in the deferred compaction check, only a failed emptiness-check
query prevents the drop; a query that succeeds but whose rows fail to
deserialize still leads to the drop of the whole measurement, and a successful
check drops exactly when no series came back. -/
theorem c10_drop_despite_decode_failure :
    ∀ (e : String) (series : List (List String)),
      drop_measurement_decision (.ok (.error e)) = true
      ∧ drop_measurement_decision (.error e) = false
      ∧ drop_measurement_decision (.ok (.ok series)) = series.isEmpty := by
  intro e series
  exact ⟨rfl, rfl, rfl⟩

/-- Claim C3, counterexample: the claim (matching the function's own header
comment) says a single `*` becomes a separator-excluding wildcard, so that the
pattern for `a/*` matches `a/b` and `a/c`, and that the pattern for `a/**`
matches `a`.  The code instead emits nothing for a trailing `*` — `a/*`
compiles to `/^a\/$/`, which matches neither `a/b` nor `a/c` — and `a/**`
compiles to `/^a\/.*$/`, which does not match `a`. -/
theorem c3_wildcard_compilation_bug :
    key_exprs_to_influx_regex ["a/*"] = "/^a\\/$/"
    ∧ influxRegexMatch (key_exprs_to_influx_regex ["a/*"]) "a/b" = false
    ∧ influxRegexMatch (key_exprs_to_influx_regex ["a/*"]) "a/c" = false
    ∧ key_exprs_to_influx_regex ["a/**"] = "/^a\\/.*$/"
    ∧ influxRegexMatch (key_exprs_to_influx_regex ["a/**"]) "a" = false
    ∧ influxRegexMatch (key_exprs_to_influx_regex ["a/**"]) "a/b/c" = true
    ∧ influxRegexMatch (key_exprs_to_influx_regex ["a/**"]) "xa/b" = false := by
  decide

/-- Helper for claim C9: appending a final `*` to an expression that does not
already end in `*` changes nothing in the compiled pattern, because the `*`
branch of the compiler only emits output when a following character exists. -/
theorem compileChars_trailing_star :
    ∀ (n : Nat) (l : List Char), l.length ≤ n → l.getLast? ≠ some '*' →
      compileChars (l ++ ['*']) = compileChars l := by
  intro n
  induction n with
  | zero =>
    intro l hl _h
    have hnil : l = [] := List.eq_nil_of_length_eq_zero (Nat.le_zero.mp hl)
    subst hnil
    decide
  | succ n ih =>
    intro l hl h
    rcases l with _ | ⟨c1, l1⟩
    · decide
    · rcases l1 with _ | ⟨c2, rest⟩
      · have hc : c1 ≠ '*' := by simpa using h
        by_cases hs : c1 = '/'
        · subst hs
          simp [compileChars]
        · simp [compileChars, hc, hs]
      · have hlast : (c2 :: rest).getLast? ≠ some '*' := by
          rwa [List.getLast?_cons_cons] at h
        have hlen : (c2 :: rest).length ≤ n := by
          simp only [List.length_cons] at hl ⊢
          omega
        by_cases h1 : c1 = '*'
        · subst h1
          by_cases h2 : c2 = '*'
          · subst h2
            have hrest : rest.getLast? ≠ some '*' := by
              rcases rest with _ | ⟨r, rs⟩
              · intro hc
                exact h (by simp at hc ⊢)
              · rwa [List.getLast?_cons_cons] at hlast
            have hlenr : rest.length ≤ n := by
              simp only [List.length_cons] at hlen
              omega
            simp [compileChars, List.append_eq, ih rest hlenr hrest]
          · simp [compileChars, List.append_eq, h2]
            rw [← List.cons_append]
            exact ih (c2 :: rest) hlen hlast
        · by_cases hs : c1 = '/'
          · subst hs
            simp [compileChars, List.append_eq]
            rw [← List.cons_append]
            exact ih (c2 :: rest) hlen hlast
          · simp [compileChars, List.append_eq, h1, hs]
            rw [← List.cons_append]
            exact ih (c2 :: rest) hlen hlast

/-- Claim C9: for a key expression whose final character is a single `*`, the
compiler emits no pattern characters for that final wildcard (appending such a
`*` leaves the compiled pattern unchanged), and in particular `a/*` compiles to
the anchored pattern `/^a\/$/`, which matches the literal series name `a/` and
nothing else. -/
theorem c9_trailing_star_emits_nothing :
    (∀ l : List Char, l.getLast? ≠ some '*' → compileChars (l ++ ['*']) = compileChars l)
    ∧ key_exprs_to_influx_regex ["a/*"] = "/^a\\/$/"
    ∧ (∀ s : String, influxRegexMatch (key_exprs_to_influx_regex ["a/*"]) s = true ↔ s = "a/") := by
  refine ⟨fun l h => compileChars_trailing_star l.length l le_rfl h, by decide, ?_⟩
  intro s
  have h1 : influxRegexMatch (key_exprs_to_influx_regex ["a/*"]) s =
      (matchToks [ReTok.lit 'a', ReTok.lit '/'] s.data || false) := rfl
  rw [h1, Bool.or_false]
  have h2 : ∀ cs : List Char,
      matchToks [ReTok.lit 'a', ReTok.lit '/'] cs = true ↔ cs = ['a', '/'] := by
    intro cs
    rcases cs with _ | ⟨d, _ | ⟨d2, ds⟩⟩ <;> simp [matchToks]
    constructor <;> rintro ⟨rfl, rfl, rfl⟩ <;> exact ⟨rfl, rfl, rfl⟩
  rw [h2]
  constructor
  · intro h
    exact String.ext h
  · intro h
    rw [h]

/-- Witness for claim C9: the expression `a/` does not end in `*`, and
appending a final `*` to it leaves the compiled pattern unchanged. -/
theorem c9_trailing_star_emits_nothing_witness :
    (['a', '/'] : List Char).getLast? ≠ some '*' ∧
      compileChars (['a', '/'] ++ ['*']) = compileChars ['a', '/'] :=
  ⟨by decide, c9_trailing_star_emits_nothing.1 ['a', '/'] (by decide)⟩

/-- Helper: `spec_time_repr` coincides with the code's `write_timeexpr`. -/
theorem spec_time_repr_eq (t : TimeExpr) : spec_time_repr t = write_timeexpr t := by
  cases t <;> rfl

/-- Claim C4: for every outcome of the time-range parse, the clause the code
builds is exactly the clause the specification describes — `kind != DEL` plus
one time comparison per bounded end (`>=`/`>` lower, `<=`/`<` upper, instants
quoted RFC3339, offsets as signed `now()` seconds), and on parse failure
`kind != DEL` plus descending time order with limit 1; the function is a pure
function of the parse outcome and always returns `.ok`. -/
theorem c4_time_clause_translation :
    ∀ r : Except String TimeRange, clauses_from_parameters r = .ok (spec_filter_clause r) := by
  intro r
  rcases r with e | ⟨start, stop⟩
  · rfl
  · cases start <;> cases stop <;>
      simp [clauses_from_parameters, spec_filter_clause, spec_bound_clause, spec_time_repr_eq,
        ← String.append_assoc, String.append_empty, String.empty_append]

/-- Claim C6: an iteration of the worker loop attempts a flush exactly when the
channel did not report closure, the batch it started with was non-empty, and
— after the iteration's receive — the batch length has reached the configured
size threshold or the elapsed time since the batch's first item exceeds the
configured timeout; any flush sends the whole accumulated batch as one
combined write and leaves the batch cleared; and the outcome of the flush
write has no influence whatsoever on the loop (a failed batch is never
retried or resubmitted). -/
theorem c6_batch_flush_behavior :
    ∀ (cfg : BatchConfig) (now : Nat) (s : BatchState) (recv : RecvOutcome) (ok : Bool),
      (flushedOf (batch_step cfg now s recv ok) ≠ none ↔
        (s.put_batch ≠ [] ∧ recv ≠ .closed ∧
          (cfg.put_batch_size ≤ (batchAfterRecv s recv).length ∨
            cfg.put_batch_timeout < now - s.batch_start_time)))
      ∧ (∀ b, flushedOf (batch_step cfg now s recv ok) = some b →
          b = batchAfterRecv s recv ∧
            stateOf (batch_step cfg now s recv ok) = some ⟨[], s.batch_start_time⟩)
      ∧ batch_step cfg now s recv true = batch_step cfg now s recv false := by
  intro cfg now s recv ok
  obtain ⟨batch, start⟩ := s
  rcases batch with _ | ⟨q0, qs⟩ <;> rcases recv with ⟨q⟩ | _ | _ <;>
    simp [batch_step, flushedOf, stateOf, batchAfterRecv]
  · rcases Decidable.em (cfg.put_batch_size ≤ qs.length + 1 + 1 ∨
        cfg.put_batch_timeout < now - start) with hc | hc <;> simp [hc]
  · rcases Decidable.em (cfg.put_batch_size ≤ qs.length + 1 ∨
        cfg.put_batch_timeout < now - start) with hc | hc <;> simp [hc]

/-- Witness for claim C6: with threshold 2 and timeout 10, a batch holding one
query that receives a second one flushes both as one write and continues with
a cleared batch. -/
theorem c6_batch_flush_behavior_witness :
    [7, 9] = batchAfterRecv ⟨[7], 0⟩ (.item 9) ∧
      stateOf (batch_step ⟨2, 10⟩ 5 ⟨[7], 0⟩ (.item 9) true) = some ⟨[], 0⟩ :=
  (c6_batch_flush_behavior ⟨2, 10⟩ 5 ⟨[7], 0⟩ (.item 9) true).2.1 [7, 9] (by decide)

/-- Claim C8: the key-to-series translation round-trips — every non-sentinel
key decodes back from its series name, the absent key maps to the sentinel
series name whose decoding yields `None`, and a series name that is neither
the sentinel nor a valid key decodes to an error. -/
theorem c8_key_codec_roundtrip :
    (∀ K : OwnedKeyExpr, K.val ≠ NONE_KEY →
      keyexpr_from_serie (measurement_of (some K)) = .ok (some K))
    ∧ keyexpr_from_serie (measurement_of none) = .ok none
    ∧ (∀ s : String, s ≠ NONE_KEY → keyexprValid s = false →
        keyexpr_from_serie s = .error ("invalid key expression: " ++ s)) := by
  refine ⟨?_, ?_, ?_⟩
  · intro K hK
    obtain ⟨s, hs⟩ := K
    simp only [measurement_of] at hK ⊢
    simp [keyexpr_from_serie, hK, OwnedKeyExpr.fromStr, hs]
  · simp [measurement_of, keyexpr_from_serie]
  · intro s hs hv
    simp [keyexpr_from_serie, hs, OwnedKeyExpr.fromStr, hv]

/-- Witness for claim C8: the key `a/b` is not the sentinel and round-trips;
the series name `a//b` is not the sentinel, fails validation, and decodes to
an error. -/
theorem c8_key_codec_roundtrip_witness :
    keyexpr_from_serie (measurement_of (some ⟨"a/b", by decide⟩)) =
        .ok (some ⟨"a/b", by decide⟩)
      ∧ keyexpr_from_serie "a//b" = .error ("invalid key expression: " ++ "a//b") :=
  ⟨c8_key_codec_roundtrip.1 ⟨"a/b", by decide⟩ (by decide),
    c8_key_codec_roundtrip.2.2 "a//b" (by decide) (by decide)⟩

/-- Claim C7: a failed backend query makes `get` return an error; the result
rows yield a value exactly when every deserialization chunk succeeds (so only
structural failures fail the call); a series whose name does not decode to a
key is skipped without failing the call; and a point whose payload or
timestamp does not decode is skipped without failing the call. -/
theorem c7_get_degradation :
    (∀ e : String, get_model (.error e) = .error e)
    ∧ (∀ chunks : List (Except String (List Serie)),
        (∃ d, get_process chunks = .ok d) ↔ ∀ c ∈ chunks, ∃ s, c = .ok s)
    ∧ (∀ (name : String) (pts : List ZenohPoint) (rest : List Serie) (e : String),
        keyexpr_from_serie name = .error e →
          process_series (⟨name, pts⟩ :: rest) = process_series rest)
    ∧ (∀ (name : String) (zp : ZenohPoint) (pts : List ZenohPoint),
        decode_point zp = none →
          process_series [⟨name, zp :: pts⟩] = process_series [⟨name, pts⟩]) := by
  refine ⟨fun e => rfl, ?_, ?_, ?_⟩
  · intro chunks
    induction chunks with
    | nil => simp [get_process]
    | cons c rest ih =>
      rcases c with e | series
      · simp [get_process]
      · rcases hr : get_process rest with er | tl
        · simp only [get_process, hr]
          constructor
          · rintro ⟨d, hd⟩
            exact absurd hd (by simp)
          · intro hall
            rcases ih.mpr (fun c hc => hall c (List.mem_cons_of_mem _ hc)) with ⟨d, hd⟩
            rw [hr] at hd
            exact absurd hd (by simp)
        · simp only [get_process, hr]
          constructor
          · intro _ c hc
            rcases List.mem_cons.mp hc with rfl | hc2
            · exact ⟨series, rfl⟩
            · exact ih.mp ⟨tl, hr⟩ c hc2
          · intro _
            exact ⟨process_series series ++ tl, rfl⟩
  · intro name pts rest e h
    simp [process_series, h]
  · intro name zp pts h
    cases hk : keyexpr_from_serie name <;>
      simp [process_series, hk, List.filterMap_cons, h]

/-- Helper: the 6-bit value of an alphabet character is recovered. -/
theorem b64Val_b64Char : ∀ n, n < 64 → b64Val (b64Char n) = some n := by decide

/-- Helper: no alphabet character is the padding character. -/
theorem b64Char_ne_pad (n : Nat) : b64Char n ≠ '=' := by
  by_cases h : n < 64
  · have H : ∀ m, m < 64 → b64Char m ≠ '=' := by decide
    exact H n h
  · unfold b64Char
    rw [List.getD_eq_default]
    · decide
    · have hlen : b64Alphabet.length = 64 := by decide
      omega

/-- Helper: encoding a non-empty byte sequence yields a non-empty string. -/
theorem b64encodeChars_ne_nil : ∀ bs : List Nat, bs ≠ [] → b64encodeChars bs ≠ [] := by
  intro bs h
  rcases bs with _ | ⟨a, _ | ⟨b, _ | ⟨c, rest⟩⟩⟩
  · exact absurd rfl h
  · simp [b64encodeChars]
  · simp [b64encodeChars]
  · simp [b64encodeChars]

/-- Helper: base64 decoding inverts base64 encoding on byte sequences. -/
theorem b64_roundtrip :
    ∀ (n : Nat) (bs : List Nat), bs.length ≤ n → (∀ x ∈ bs, x < 256) →
      b64decodeChars (b64encodeChars bs) = some bs := by
  intro n
  induction n with
  | zero =>
    intro bs hl _
    have hnil : bs = [] := List.eq_nil_of_length_eq_zero (Nat.le_zero.mp hl)
    subst hnil
    rfl
  | succ n ih =>
    intro bs hl hb
    rcases bs with _ | ⟨a, _ | ⟨b, _ | ⟨c, rest⟩⟩⟩
    · rfl
    · have ha : a < 256 := hb a (by simp)
      have hv1 : b64Val (b64Char (a / 4)) = some (a / 4) := b64Val_b64Char _ (by omega)
      have hv2 : b64Val (b64Char (a % 4 * 16)) = some (a % 4 * 16) := b64Val_b64Char _ (by omega)
      have hz : a % 4 * 16 % 16 = 0 := by omega
      simp [b64encodeChars, b64decodeChars, b64Char_ne_pad, hv1, hv2, hz]
      omega
    · have ha : a < 256 := hb a (by simp)
      have hbb : b < 256 := hb b (by simp)
      have hv1 : b64Val (b64Char (a / 4)) = some (a / 4) := b64Val_b64Char _ (by omega)
      have hv2 : b64Val (b64Char (a % 4 * 16 + b / 16)) = some (a % 4 * 16 + b / 16) :=
        b64Val_b64Char _ (by omega)
      have hv3 : b64Val (b64Char (b % 16 * 4)) = some (b % 16 * 4) := b64Val_b64Char _ (by omega)
      have hz : b % 16 * 4 % 4 = 0 := by omega
      simp [b64encodeChars, b64decodeChars, b64Char_ne_pad, hv1, hv2, hv3, hz]
      omega
    · have ha : a < 256 := hb a (by simp)
      have hbb : b < 256 := hb b (by simp)
      have hc : c < 256 := hb c (by simp)
      have hrest : ∀ x ∈ rest, x < 256 := fun x hx => hb x (by simp [hx])
      have hlen : rest.length ≤ n := by
        simp only [List.length_cons] at hl
        omega
      have hv1 : b64Val (b64Char (a / 4)) = some (a / 4) := b64Val_b64Char _ (by omega)
      have hv2 : b64Val (b64Char (a % 4 * 16 + b / 16)) = some (a % 4 * 16 + b / 16) :=
        b64Val_b64Char _ (by omega)
      have hv3 : b64Val (b64Char (b % 16 * 4 + c / 64)) = some (b % 16 * 4 + c / 64) :=
        b64Val_b64Char _ (by omega)
      have hv4 : b64Val (b64Char (c % 64)) = some (c % 64) := b64Val_b64Char _ (by omega)
      rcases hre : rest with _ | ⟨r0, rs⟩
      · simp [b64encodeChars, b64decodeChars, b64Char_ne_pad, hv1, hv2, hv3, hv4]
        omega
      · have hne : b64encodeChars (r0 :: rs) ≠ [] := b64encodeChars_ne_nil _ (by simp)
        have hemp : (b64encodeChars (r0 :: rs)).isEmpty = false := by
          rcases he : b64encodeChars (r0 :: rs) with _ | _
          · exact absurd he hne
          · rfl
        have hihr : b64decodeChars (b64encodeChars (r0 :: rs)) = some (r0 :: rs) := by
          rw [← hre]
          rw [hre] at hlen hrest ⊢
          exact ih _ hlen hrest
        simp [b64encodeChars, b64decodeChars, hemp, hv1, hv2, hv3, hv4, hihr]
        omega

/-- Helper: every character's UTF-8 encoding uses bytes below 256, and never
the byte 255 (which is not a valid UTF-8 byte). -/
theorem utf8EncodeChar_facts (c : Char) : ∀ b ∈ utf8EncodeChar c, b < 256 ∧ b ≠ 255 := by
  intro b hb
  have hv : c.toNat < 1114112 := by
    rcases c.valid with h | h
    · exact lt_trans h (by norm_num)
    · exact h.2
  dsimp only [utf8EncodeChar] at hb
  split_ifs at hb with h1 h2 h3 <;> simp at hb <;> omega

/-- Helper: the UTF-8 bytes of any string are below 256 and never 255. -/
theorem strBytes_bounds (m : String) : ∀ b ∈ strBytes m, b < 256 ∧ b ≠ 255 := by
  unfold strBytes
  generalize m.data = l
  induction l with
  | nil => simp
  | cons c cs ih =>
    intro b hb
    simp only [List.foldr_cons, List.mem_append] at hb
    rcases hb with hb | hb
    · exact utf8EncodeChar_facts c b hb
    · exact ih b hb

/-- Helper: no string has `[255]` as its UTF-8 bytes. -/
theorem strBytes_ne_255 (m : String) : strBytes m ≠ [255] := by
  intro h
  have h255 : (255 : Nat) ∈ strBytes m := by
    rw [h]
    simp
  exact (strBytes_bounds m 255 h255).2 rfl

/-- Claim C5, showing the code bug: for the non-UTF-8 payload `[255]`, `put`
stores — whatever the deserialization error's display text `err_msg` is — the
base64 encoding of that *error text*, not of the payload; reading the point
back therefore yields the error text's bytes, which are never the original
payload `[255]` (an error text is a string, and no UTF-8 byte sequence is
`[255]`).  The claim's promised round-trip fails. -/
theorem c5_nonutf8_payload_bug :
    ∀ err_msg : String,
      put_encode_value err_msg [255] = (true, b64encode (strBytes err_msg))
      ∧ get_decode_payload (put_encode_value err_msg [255]).1
          (put_encode_value err_msg [255]).2 = some (strBytes err_msg)
      ∧ strBytes err_msg ≠ [255] := by
  intro m
  have h1 : put_encode_value m [255] = (true, b64encode (strBytes m)) := rfl
  refine ⟨h1, ?_, strBytes_ne_255 m⟩
  rw [h1]
  show b64decodeChars (b64encodeChars (strBytes m)) = some (strBytes m)
  exact b64_roundtrip (strBytes m).length _ le_rfl (fun x hx => (strBytes_bounds m x hx).1)

/-- Witness for claim C7: a concrete series with the undecodable name `a//b` is
skipped, and a concrete point with the unparsable timestamp `junk` is
skipped, neither failing the processing. -/
theorem c7_get_degradation_witness :
    process_series [⟨"a//b", []⟩, ⟨"a/b", []⟩] = process_series [⟨"a/b", []⟩] ∧
      process_series [⟨"a/b", [⟨"PUT", "junk", 0, "", false, "v"⟩]⟩] =
        process_series [⟨"a/b", []⟩] :=
  ⟨c7_get_degradation.2.2.1 "a//b" [] [⟨"a/b", []⟩]
      ("invalid key expression: " ++ "a//b") (by decide),
    c7_get_degradation.2.2.2 "a/b" ⟨"PUT", "junk", 0, "", false, "v"⟩ [] (by decide)⟩
